import Mathlib

/-!
# Verification of the task-manager API's task router

Shallow embedding of the task CRUD/query router (`src/routes/tasks.ts`) and
the parts of the SQLite schema it relies on.  The store is modelled as a list
of task rows; each prepared SQL statement used by the router is translated to
an executable Lean function with the same observable semantics.
-/

namespace TaskApi

/-- A row of the `tasks` table.  `description` and `due_date` are nullable
(`TEXT`), all other columns are `NOT NULL`.  Timestamps are the textual
values SQLite's `strftime` produces. -/
structure Task where
  id : Nat
  user_id : Nat
  title : String
  description : Option String
  status : String
  priority : String
  due_date : Option String
  created_at : String
  updated_at : String
deriving DecidableEq, Repr

/-- The task store: the `tasks` table as a list of rows. -/
abbrev Store := List Task

/-- A defined JSON field value as it reaches a handler: either JSON `null`
or a string.  A field that is absent from the request body is modelled as
`Option JVal = none` at the use site (JavaScript `undefined`). -/
inductive JVal where
  | jnull : JVal
  | jstr : String → JVal
deriving DecidableEq, Repr

/-- `v ?? null` on a defined JSON value: `null` stays `null`, a string is
kept.  Composed with `Option.bind` it also models `undefined ?? null`. -/
def JVal.toOptStr : JVal → Option String
  | .jnull => none
  | .jstr s => some s

/-- JavaScript `String.prototype.trim()`: strips leading and trailing
whitespace.  Implemented structurally (kernel-computable) on the character
list. -/
def jsTrim (s : String) : String :=
  ⟨((s.data.dropWhile Char.isWhitespace).reverse.dropWhile Char.isWhitespace).reverse⟩

/-- Response bodies the router can produce. -/
inductive RespBody where
  | errMsg : String → RespBody
  | taskData : Task → RespBody
  | listData : List Task → Nat → Nat → Nat → RespBody
  | deletedData : RespBody
deriving DecidableEq, Repr

/-- An HTTP response: status code plus JSON body. -/
structure Response where
  status : Nat
  body : RespBody
deriving DecidableEq, Repr

/-- The `404 { error: 'Task not found' }` response, shared verbatim by the
invalid-id path, the missing-row path and the ownership-mismatch path. -/
def notFoundResp : Response := ⟨404, .errMsg "Task not found"⟩

/-! ## JavaScript numeric parsing (`parseInt`) -/

/-- Value of a list of decimal digit characters. -/
def decValue (cs : List Char) : Nat :=
  cs.foldl (fun a c => a * 10 + (c.toNat - 48)) 0

/-- JavaScript leading-whitespace skip performed by `parseInt`. -/
def skipWs (cs : List Char) : List Char :=
  cs.dropWhile (fun c => c = ' ' ∨ c = '\t' ∨ c = '\n' ∨ c = '\r')

/-- `parseInt(s, 10)`: skip whitespace, optional sign, then the maximal
prefix of decimal digits; no digits means `NaN`, modelled as `none`. -/
def parseIntDec (s : String) : Option Int :=
  let cs := skipWs s.data
  let signed : Int × List Char :=
    match cs with
    | '-' :: r => (-1, r)
    | '+' :: r => (1, r)
    | r => (1, r)
  let ds := signed.2.takeWhile Char.isDigit
  if ds.isEmpty then none else some (signed.1 * decValue ds)

/-- Value of a list of hexadecimal digit characters. -/
def hexValue (cs : List Char) : Nat :=
  cs.foldl (fun a c =>
    a * 16 +
      (if c.isDigit then c.toNat - 48
       else if 'a' ≤ c ∧ c ≤ 'f' then c.toNat - 87
       else c.toNat - 55)) 0

/-- `parseInt(s)` with no radix argument: like radix 10, except that a
`0x`/`0X` prefix switches to hexadecimal. -/
def parseIntAuto (s : String) : Option Int :=
  let cs := skipWs s.data
  let signed : Int × List Char :=
    match cs with
    | '-' :: r => (-1, r)
    | '+' :: r => (1, r)
    | r => (1, r)
  match signed.2 with
  | '0' :: 'x' :: r =>
      let ds := r.takeWhile (fun c => c.isDigit ∨ ('a' ≤ c ∧ c ≤ 'f') ∨ ('A' ≤ c ∧ c ≤ 'F'))
      if ds.isEmpty then none else some (signed.1 * hexValue ds)
  | '0' :: 'X' :: r =>
      let ds := r.takeWhile (fun c => c.isDigit ∨ ('a' ≤ c ∧ c ≤ 'f') ∨ ('A' ≤ c ∧ c ≤ 'F'))
      if ds.isEmpty then none else some (signed.1 * hexValue ds)
  | r =>
      let ds := r.takeWhile Char.isDigit
      if ds.isEmpty then none else some (signed.1 * decValue ds)

/-- `parseTaskId`: parses a route `:id` param to a positive integer, or
returns `none` for any string that is not the canonical decimal rendering
of a positive integer (`parseInt(raw, 10)` followed by
`Number.isInteger(n) && n > 0 && String(n) === raw`). -/
def parseTaskId (raw : String) : Option Nat :=
  match parseIntDec raw with
  | none => none
  | some n => if 0 < n ∧ toString n = raw then some n.toNat else none

/-! ## Enum validation -/

def VALID_STATUSES : List String := ["todo", "in_progress", "done"]
def VALID_PRIORITIES : List String := ["low", "medium", "high", "urgent"]

/-- Membership test of a defined JSON value in an enum set.
`Set.has(null)` is `false`, so JSON `null` never validates. -/
def JVal.inEnum (v : JVal) (l : List String) : Bool :=
  match v with
  | .jnull => false
  | .jstr s => l.contains s

/-- `validateEnums(status, priority)`: returns the error message if either
field is defined but not in its enum set, else `none`.  `none` at a field
models JavaScript `undefined` (validation skipped). -/
def validateEnums (status priority : Option JVal) : Option String :=
  match status with
  | some v =>
      if v.inEnum VALID_STATUSES then
        match priority with
        | some w =>
            if w.inEnum VALID_PRIORITIES then none
            else some "Invalid priority. Must be one of: low, medium, high, urgent"
        | none => none
      else some "Invalid status. Must be one of: todo, in_progress, done"
  | none =>
      match priority with
      | some w =>
          if w.inEnum VALID_PRIORITIES then none
          else some "Invalid priority. Must be one of: low, medium, high, urgent"
      | none => none

/-! ## Single-row statements -/

/-- `SELECT ... FROM tasks WHERE id = ? AND user_id = ?` (first row). -/
def stmtGetById (store : Store) (id uid : Nat) : Option Task :=
  store.find? (fun t => t.id == id && t.user_id == uid)

/-- GET `/tasks/:id` handler (after authentication). -/
def getTaskHandler (store : Store) (uid : Nat) (rawId : String) : Response :=
  match parseTaskId rawId with
  | none => notFoundResp
  | some id =>
      match stmtGetById store id uid with
      | none => notFoundResp
      | some t => ⟨200, .taskData t⟩

/-- DELETE `/tasks/:id` handler: `DELETE FROM tasks WHERE id = ? AND
user_id = ?`, then 404 when `changes === 0`. -/
def deleteTaskHandler (store : Store) (uid : Nat) (rawId : String) :
    Response × Store :=
  match parseTaskId rawId with
  | none => (notFoundResp, store)
  | some id =>
      let changes := (store.filter (fun t => t.id == id && t.user_id == uid)).length
      let store' := store.filter (fun t => !(t.id == id && t.user_id == uid))
      if changes = 0 then (notFoundResp, store')
      else (⟨200, .deletedData⟩, store')

/-! ## PATCH `/tasks/:id` -/

/-- A PATCH request body.  `none` models a key absent from the JSON
document (JavaScript `undefined`), `some .jnull` a key present with value
`null`, `some (.jstr s)` a key present with a string value. -/
structure UpdateBody where
  title : Option JVal := none
  description : Option JVal := none
  status : Option JVal := none
  priority : Option JVal := none
  due_date : Option JVal := none
deriving DecidableEq, Repr

/-- One `column = ?` assignment of the dynamically built SET clause,
together with its bound parameter. -/
inductive Assign where
  | setTitle : String → Assign
  | setDescription : Option String → Assign
  | setStatus : Option String → Assign
  | setPriority : Option String → Assign
  | setDueDate : Option String → Assign
deriving DecidableEq, Repr

/-- Applies one assignment to a row.  A `none` bound for `status` or
`priority` would violate the schema's NOT NULL constraint; enum validation
runs before any assignment is built, so that case is unreachable and is
modelled as leaving the column untouched. -/
def applyAssign (t : Task) : Assign → Task
  | .setTitle v => { t with title := v }
  | .setDescription v => { t with description := v }
  | .setStatus v => { t with status := v.getD t.status }
  | .setPriority v => { t with priority := v.getD t.priority }
  | .setDueDate v => { t with due_date := v }

/-- The presence-driven tail of the SET clause: description, status,
priority and due_date assignments, emitted exactly when the key is in the
body, with `body.x ?? null` as the bound value. -/
def tailSets (body : UpdateBody) (init : List Assign) : List Assign :=
  init
    ++ (match body.description with | some v => [Assign.setDescription v.toOptStr] | none => [])
    ++ (match body.status with | some v => [Assign.setStatus v.toOptStr] | none => [])
    ++ (match body.priority with | some v => [Assign.setPriority v.toOptStr] | none => [])
    ++ (match body.due_date with | some v => [Assign.setDueDate v.toOptStr] | none => [])

/-- Builds the SET assignment list from the body, or fails when `title` is
present but `(body.title ?? '').trim()` is empty. -/
def buildSets (body : UpdateBody) : Except String (List Assign) :=
  match body.title with
  | some v =>
      let trimmed := jsTrim ((JVal.toOptStr v).getD "")
      if trimmed = "" then .error "title cannot be empty"
      else .ok (tailSets body [.setTitle trimmed])
  | none => .ok (tailSets body [])

/-- PATCH `/tasks/:id` handler: id parsing, enum validation, SET-clause
construction, empty-document check, then a single
`UPDATE ... WHERE id = ? AND user_id = ? RETURNING ...`. -/
def patchTaskHandler (store : Store) (uid : Nat) (rawId : String)
    (body : UpdateBody) (now : String) : Response × Store :=
  match parseTaskId rawId with
  | none => (notFoundResp, store)
  | some id =>
      match validateEnums body.status body.priority with
      | some msg => (⟨400, .errMsg msg⟩, store)
      | none =>
          match buildSets body with
          | .error msg => (⟨400, .errMsg msg⟩, store)
          | .ok sets =>
              if sets.isEmpty then (⟨400, .errMsg "No fields to update"⟩, store)
              else
                let upd := fun t =>
                  { sets.foldl applyAssign t with updated_at := now }
                let store' := store.map (fun t =>
                  if t.id == id && t.user_id == uid then upd t else t)
                (match store'.find? (fun t => t.id == id && t.user_id == uid) with
                  | none => notFoundResp
                  | some t => ⟨200, .taskData t⟩,
                 store')

/-! ## POST `/tasks` -/

/-- A POST request body, with the same absent / null / string encoding as
`UpdateBody`. -/
structure CreateBody where
  title : Option JVal := none
  description : Option JVal := none
  status : Option JVal := none
  priority : Option JVal := none
  due_date : Option JVal := none
deriving DecidableEq, Repr

/-- POST `/tasks` handler: title truthiness/trim check, enum validation,
then `INSERT ... RETURNING`.  `newId` is the AUTOINCREMENT id the store
assigns; `created_at` and `updated_at` take the schema's `strftime`
defaults, i.e. `now`. -/
def postTaskHandler (store : Store) (uid : Nat) (body : CreateBody)
    (now : String) (newId : Nat) : Response × Store :=
  match body.title with
  | some (.jstr s) =>
      if jsTrim s = "" then (⟨400, .errMsg "title is required"⟩, store)
      else
        match validateEnums body.status body.priority with
        | some msg => (⟨400, .errMsg msg⟩, store)
        | none =>
            let t : Task :=
              { id := newId
                user_id := uid
                title := jsTrim s
                description := body.description.bind JVal.toOptStr
                status := (body.status.bind JVal.toOptStr).getD "todo"
                priority := (body.priority.bind JVal.toOptStr).getD "medium"
                due_date := body.due_date.bind JVal.toOptStr
                created_at := now
                updated_at := now }
            (⟨201, .taskData t⟩, store ++ [t])
  | _ => (⟨400, .errMsg "title is required"⟩, store)

/-! ## GET `/tasks` (list) -/

/-- The query string of a list request; every parameter is an optional
raw string exactly as express delivers it. -/
structure ListQuery where
  status : Option String := none
  priority : Option String := none
  due_before : Option String := none
  due_after : Option String := none
  include_overdue : Option String := none
  limit : Option String := none
  offset : Option String := none
deriving DecidableEq, Repr

/-- `ISO_DATE_RE`: `YYYY-MM-DD` or `YYYY-MM-DDTHH:MM:SSZ`. -/
def isIsoDate (s : String) : Bool :=
  match s.data with
  | [a, b, c, d, '-', e, f, '-', g, h] =>
      a.isDigit && b.isDigit && c.isDigit && d.isDigit &&
      e.isDigit && f.isDigit && g.isDigit && h.isDigit
  | [a, b, c, d, '-', e, f, '-', g, h, 'T', i, j, ':', k, l, ':', m, n, 'Z'] =>
      a.isDigit && b.isDigit && c.isDigit && d.isDigit &&
      e.isDigit && f.isDigit && g.isDigit && h.isDigit &&
      i.isDigit && j.isDigit && k.isDigit && l.isDigit &&
      m.isDigit && n.isDigit
  | _ => false

/-- JavaScript truthiness of an optional query-string value: defined and
non-empty (`if (status) { ... }`). -/
def present : Option String → Bool
  | some s => s != ""
  | none => false

/-- `include_overdue === 'true'`. -/
def overdueFlag (q : ListQuery) : Bool :=
  q.include_overdue == some "true"

/-- At least one of the four filter conditions was pushed. -/
def hasAnyFilter (q : ListQuery) : Bool :=
  present q.status || present q.priority || present q.due_before || present q.due_after

/-- Effective page size: `Math.min(Math.max(parseInt(limit) || 50, 1), 500)`.
`parseInt` yielding `NaN` or `0` falls through `||` to the default 50. -/
def effLimit (q : ListQuery) : Nat :=
  let p : Int :=
    match q.limit.bind parseIntAuto with
    | none => 50
    | some n => if n = 0 then 50 else n
  (min (max p 1) 500).toNat

/-- Effective offset: `Math.max(parseInt(offset) || 0, 0)`. -/
def effOffset (q : ListQuery) : Nat :=
  let p : Int :=
    match q.offset.bind parseIntAuto with
    | none => 0
    | some n => n
  (max p 0).toNat

/-- `due_after` validation step of the list handler. -/
def dueAfterError (q : ListQuery) : Option String :=
  match q.due_after with
  | some s =>
      if isIsoDate s then none
      else some "due_after must be a valid ISO 8601 date (YYYY-MM-DD or YYYY-MM-DDTHH:MM:SSZ)"
  | none => none

/-- The list handler's 400 paths, in source order: enum validation, then
`due_before`, then `due_after`. -/
def listValidationError (q : ListQuery) : Option String :=
  match validateEnums (q.status.map JVal.jstr) (q.priority.map JVal.jstr) with
  | some msg => some msg
  | none =>
      match q.due_before with
      | some s =>
          if isIsoDate s then dueAfterError q
          else some "due_before must be a valid ISO 8601 date (YYYY-MM-DD or YYYY-MM-DDTHH:MM:SSZ)"
      | none => dueAfterError q

/-- SQL `due_date < ?`: a NULL `due_date` compares to NULL and the row is
excluded; otherwise plain text comparison. -/
def dueBefore (t : Task) (b : String) : Bool :=
  match t.due_date with
  | some d => decide (d < b)
  | none => false

/-- SQL `due_date > ?`. -/
def dueAfter (t : Task) (b : String) : Bool :=
  match t.due_date with
  | some d => decide (b < d)
  | none => false

/-- Conjunction of the pushed filter conditions, each guarded by the same
truthiness test that pushed it. -/
def matchesFilters (q : ListQuery) (t : Task) : Bool :=
  (!(present q.status) || t.status == q.status.getD "") &&
  (!(present q.priority) || t.priority == q.priority.getD "") &&
  (!(present q.due_before) || dueBefore t (q.due_before.getD "")) &&
  (!(present q.due_after) || dueAfter t (q.due_after.getD ""))

/-- `OVERDUE_CLAUSE`: `due_date < strftime(..., 'now') AND status != 'done'`. -/
def isOverdueTask (now : String) (t : Task) : Bool :=
  dueBefore t now && t.status != "done"

/-- `user_id = ?` with the caller's id bound. -/
def ownerPred (uid : Nat) (t : Task) : Bool :=
  t.user_id == uid

/-- Rows produced by the selected list SQL before ORDER BY / LIMIT /
OFFSET.  The union branch mirrors SQL `UNION`: both branch results
concatenated with duplicate rows collapsed. -/
def listRows (store : Store) (uid : Nat) (q : ListQuery) (now : String) : List Task :=
  let pf := fun t => ownerPred uid t && matchesFilters q t
  let po := fun t => ownerPred uid t && isOverdueTask now t
  if hasAnyFilter q && overdueFlag q then (store.filter pf ++ store.filter po).dedup
  else if hasAnyFilter q then store.filter pf
  else if overdueFlag q then store.filter po
  else store.filter (ownerPred uid)

/-- The total produced by the selected count SQL.  The union branch counts
`SELECT id ... UNION SELECT id ...`, i.e. the deduplicated id union. -/
def listTotal (store : Store) (uid : Nat) (q : ListQuery) (now : String) : Nat :=
  let pf := fun t => ownerPred uid t && matchesFilters q t
  let po := fun t => ownerPred uid t && isOverdueTask now t
  if hasAnyFilter q && overdueFlag q then
    (((store.filter pf).map Task.id) ++ ((store.filter po).map Task.id)).dedup.length
  else if hasAnyFilter q then (store.filter pf).length
  else if overdueFlag q then (store.filter po).length
  else (store.filter (ownerPred uid)).length

/-- Insertion step of `ORDER BY created_at DESC`. -/
def insertByCreatedDesc (t : Task) : List Task → List Task
  | [] => [t]
  | a :: l =>
      if a.created_at ≤ t.created_at then t :: a :: l
      else a :: insertByCreatedDesc t l

/-- `ORDER BY created_at DESC` (tie order unspecified in SQL; a stable
insertion sort is one admissible realization). -/
def sortByCreatedDesc (l : List Task) : List Task :=
  l.foldr insertByCreatedDesc []

/-- The returned page: ordered rows, then `OFFSET`, then `LIMIT`. -/
def listPage (store : Store) (uid : Nat) (q : ListQuery) (now : String) : List Task :=
  ((sortByCreatedDesc (listRows store uid q now)).drop (effOffset q)).take (effLimit q)

/-- GET `/tasks` handler. -/
def listTasksHandler (store : Store) (uid : Nat) (q : ListQuery) (now : String) : Response :=
  match listValidationError q with
  | some msg => ⟨400, .errMsg msg⟩
  | none =>
      ⟨200, .listData (listPage store uid q now) (listTotal store uid q now)
        (effLimit q) (effOffset q)⟩

/-! ## SQL text construction and the statement cache -/

/-- The predicate shape of a list request: which of the four filter
conditions were pushed, plus the overdue flag. -/
structure Shape where
  hasStatus : Bool
  hasPriority : Bool
  hasBefore : Bool
  hasAfter : Bool
  overdue : Bool
deriving DecidableEq, Repr

/-- Shape of a concrete query string. -/
def shapeOf (q : ListQuery) : Shape :=
  ⟨present q.status, present q.priority, present q.due_before, present q.due_after,
    overdueFlag q⟩

def TASK_COLS : String :=
  "id, user_id, title, description, status, priority, due_date, created_at, updated_at"

def NOW_EXPR : String :=
  "strftime(\x27%Y-%m-%dT%H:%M:%SZ\x27, \x27now\x27)"

def OVERDUE_CLAUSE : String :=
  "due_date < " ++ NOW_EXPR ++ " AND status != \x27done\x27"

/-- The `conditions` array: one fixed fragment per active filter toggle;
bound values never appear in the text. -/
def shapeConditions (s : Shape) : List String :=
  (if s.hasStatus then ["status = ?"] else []) ++
  (if s.hasPriority then ["priority = ?"] else []) ++
  (if s.hasBefore then ["due_date < ?"] else []) ++
  (if s.hasAfter then ["due_date > ?"] else [])

def filterWhereOf (s : Shape) : Option String :=
  let conds := shapeConditions s
  if conds.isEmpty then none
  else some ("user_id = ? AND " ++ String.intercalate " AND " conds)

def overdueWhere : String :=
  "user_id = ? AND " ++ OVERDUE_CLAUSE

/-- `listSql` of the four-way branch of the handler. -/
def listSqlFromShape (s : Shape) : String :=
  match filterWhereOf s, s.overdue with
  | some w, true =>
      "SELECT " ++ TASK_COLS ++ " FROM tasks WHERE " ++ w ++ " UNION SELECT " ++
        TASK_COLS ++ " FROM tasks WHERE " ++ overdueWhere ++
        " ORDER BY created_at DESC LIMIT ? OFFSET ?"
  | some w, false =>
      "SELECT " ++ TASK_COLS ++ " FROM tasks WHERE " ++ w ++
        " ORDER BY created_at DESC LIMIT ? OFFSET ?"
  | none, true =>
      "SELECT " ++ TASK_COLS ++ " FROM tasks WHERE " ++ overdueWhere ++
        " ORDER BY created_at DESC LIMIT ? OFFSET ?"
  | none, false =>
      "SELECT " ++ TASK_COLS ++ " FROM tasks WHERE user_id = ? ORDER BY created_at DESC LIMIT ? OFFSET ?"

/-- `countSql` of the four-way branch of the handler. -/
def countSqlFromShape (s : Shape) : String :=
  match filterWhereOf s, s.overdue with
  | some w, true =>
      "SELECT COUNT(*) AS total FROM (SELECT id FROM tasks WHERE " ++ w ++
        " UNION SELECT id FROM tasks WHERE " ++ overdueWhere ++ ")"
  | some w, false =>
      "SELECT COUNT(*) AS total FROM tasks WHERE " ++ w
  | none, true =>
      "SELECT COUNT(*) AS total FROM tasks WHERE " ++ overdueWhere
  | none, false =>
      "SELECT COUNT(*) AS total FROM tasks WHERE user_id = ?"

/-- The list SQL text the handler builds for a query string. -/
def listSqlOf (q : ListQuery) : String := listSqlFromShape (shapeOf q)

/-- The count SQL text the handler builds for a query string. -/
def countSqlOf (q : ListQuery) : String := countSqlFromShape (shapeOf q)

/-- All 32 shapes. -/
def allShapes : List Shape :=
  [false, true].flatMap fun a => [false, true].flatMap fun b =>
    [false, true].flatMap fun c => [false, true].flatMap fun d =>
      [false, true].map fun e => ⟨a, b, c, d, e⟩

/-- Every SQL text a list request can put in the cache. -/
def allListSqls : List String :=
  allShapes.map listSqlFromShape ++ allShapes.map countSqlFromShape

/-- The statement cache: insertion-ordered map from SQL text to the
prepared statement, modelled by its text. -/
abbrev StmtCache := List (String × String)

/-- `getStmt`: return the cached statement for this SQL text, else prepare
(`db.prepare(sql)`, modelled as the text itself), store and return it. -/
def getStmt (c : StmtCache) (sql : String) : String × StmtCache :=
  match c.lookup sql with
  | some st => (st, c)
  | none => (sql, c ++ [(sql, sql)])

/-- Cache state after one list request: `getStmt(listSql)` then
`getStmt(countSql)`. -/
def cacheAfterListRequest (c : StmtCache) (q : ListQuery) : StmtCache :=
  (getStmt (getStmt c (listSqlOf q)).2 (countSqlOf q)).2

/-- Cache state after a sequence of list requests. -/
def cacheAfterListRequests (qs : List ListQuery) (c : StmtCache) : StmtCache :=
  qs.foldl cacheAfterListRequest c

/-! ## Helper lemmas -/

lemma parseTaskId_canonical {raw : String} {m : Nat}
    (h : parseTaskId raw = some m) : 0 < m ∧ raw = toString m := by
  unfold parseTaskId at h
  cases hp : parseIntDec raw with
  | none => rw [hp] at h; exact absurd h (by simp)
  | some n =>
      rw [hp] at h
      change (if 0 < n ∧ toString n = raw then some n.toNat else none) = some m at h
      split at h
      · rename_i hc
        obtain ⟨hn, hs⟩ := hc
        injection h with hm
        subst hm
        refine ⟨by omega, ?_⟩
        have hcast : ((n.toNat : Int)) = n := Int.toNat_of_nonneg (le_of_lt hn)
        rw [← hs, ← hcast]
        rfl
      · exact absurd h (by simp)

/-- If the caller owns no task with id `i`, the ownership-guard predicate
holds on no row. -/
lemma owner_cond_false {store : Store} {uid i : Nat}
    (h : ∀ t ∈ store, t.user_id = uid → t.id ≠ i) :
    ∀ t ∈ store, ¬((t.id == i && t.user_id == uid) = true) := by
  intro t ht hc
  simp only [Bool.and_eq_true, beq_iff_eq] at hc
  exact h t ht hc.2 hc.1

lemma find?_owner_none {store : Store} {uid i : Nat}
    (h : ∀ t ∈ store, t.user_id = uid → t.id ≠ i) :
    store.find? (fun t => t.id == i && t.user_id == uid) = none :=
  List.find?_eq_none.mpr (owner_cond_false h)

lemma filter_owner_nil {store : Store} {uid i : Nat}
    (h : ∀ t ∈ store, t.user_id = uid → t.id ≠ i) :
    store.filter (fun t => t.id == i && t.user_id == uid) = [] :=
  List.filter_eq_nil_iff.mpr (owner_cond_false h)

lemma filter_not_owner_self {store : Store} {uid i : Nat}
    (h : ∀ t ∈ store, t.user_id = uid → t.id ≠ i) :
    store.filter (fun t => !(t.id == i && t.user_id == uid)) = store :=
  List.filter_eq_self.mpr (fun t ht => by
    simp only [Bool.not_eq_true']
    exact Bool.not_eq_true _ ▸ Bool.of_not_eq_true (owner_cond_false h t ht))

lemma map_upd_eq_self {store : Store} {uid i : Nat} (f : Task → Task)
    (h : ∀ t ∈ store, t.user_id = uid → t.id ≠ i) :
    store.map (fun t => if t.id == i && t.user_id == uid then f t else t) = store := by
  induction store with
  | nil => rfl
  | cons a l ih =>
      simp only [List.map_cons]
      rw [if_neg (owner_cond_false h a (List.mem_cons_self a l)),
        ih (fun t ht => h t (List.mem_cons_of_mem a ht))]

/-! ## C8 -/

/-- C8: a GET, PATCH or DELETE `/tasks/:id` request whose id segment fails
to parse returns the not-found response for every store and every body —
never an invalid-input error — and leaves the store untouched, the
response being independent of the store's contents; and the parse succeeds
only on the canonical decimal representation of a positive integer, so
every non-canonical segment falls in the first case. -/
theorem spec_c8 (raw : String) (store : Store) (uid : Nat) (body : UpdateBody)
    (now : String) :
    (parseTaskId raw = none →
      getTaskHandler store uid raw = notFoundResp ∧
      patchTaskHandler store uid raw body now = (notFoundResp, store) ∧
      deleteTaskHandler store uid raw = (notFoundResp, store)) ∧
    (∀ m : Nat, parseTaskId raw = some m → 0 < m ∧ raw = toString m) := by
  constructor
  · intro h
    refine ⟨?_, ?_, ?_⟩ <;>
      simp [getTaskHandler, patchTaskHandler, deleteTaskHandler, h]
  · intro m hm; exact parseTaskId_canonical hm

/-- Witness for C8 at the concrete malformed ids "abc", "1.5" and "0". -/
theorem spec_c8_witness :
    getTaskHandler [] 7 "abc" = notFoundResp ∧
    patchTaskHandler [] 7 "1.5" {} "t0" = (notFoundResp, []) ∧
    deleteTaskHandler [] 7 "0" = (notFoundResp, []) :=
  ⟨((spec_c8 "abc" [] 7 {} "t0").1 (by decide)).1,
   ((spec_c8 "1.5" [] 7 {} "t0").1 (by decide)).2.1,
   ((spec_c8 "0" [] 7 {} "t0").1 (by decide)).2.2⟩

/-! ## C1 -/

/-- C1: for every request body, whenever the store holds no task with the
requested id owned by the caller — which covers both "the id does not
exist" and "the task exists but belongs to a different user" — GET, PATCH
and DELETE `/tasks/:id` return a response that does not depend on the rest
of the store (so the two situations are indistinguishable: same status,
same message), GET returns exactly the shared not-found response, and
PATCH and DELETE leave the store unchanged. -/
theorem spec_c1 (store store₂ : Store) (uid : Nat) (rawId : String)
    (body : UpdateBody) (now : String)
    (h₁ : ∀ t ∈ store, t.user_id = uid → parseTaskId rawId ≠ some t.id)
    (h₂ : ∀ t ∈ store₂, t.user_id = uid → parseTaskId rawId ≠ some t.id) :
    getTaskHandler store uid rawId = getTaskHandler store₂ uid rawId ∧
    getTaskHandler store uid rawId = notFoundResp ∧
    (patchTaskHandler store uid rawId body now).1 =
      (patchTaskHandler store₂ uid rawId body now).1 ∧
    (patchTaskHandler store uid rawId body now).2 = store ∧
    (deleteTaskHandler store uid rawId).1 = (deleteTaskHandler store₂ uid rawId).1 ∧
    (deleteTaskHandler store uid rawId).2 = store := by
  cases hp : parseTaskId rawId with
  | none =>
      simp [getTaskHandler, patchTaskHandler, deleteTaskHandler, hp]
  | some i =>
      have hni₁ : ∀ t ∈ store, t.user_id = uid → t.id ≠ i := by
        intro t ht hu hid; exact h₁ t ht hu (hid ▸ hp)
      have hni₂ : ∀ t ∈ store₂, t.user_id = uid → t.id ≠ i := by
        intro t ht hu hid; exact h₂ t ht hu (hid ▸ hp)
      have f₁ : stmtGetById store i uid = none := find?_owner_none hni₁
      have f₂ : stmtGetById store₂ i uid = none := find?_owner_none hni₂
      refine ⟨?_, ?_, ?_, ?_, ?_, ?_⟩
      · simp [getTaskHandler, hp, f₁, f₂]
      · simp [getTaskHandler, hp, f₁]
      · simp only [patchTaskHandler, hp]
        cases hv : validateEnums body.status body.priority with
        | some m => simp
        | none =>
            cases hbs : buildSets body with
            | error m => simp
            | ok sets =>
                by_cases hse : sets.isEmpty
                · simp [hse]
                · simp only [hse, Bool.false_eq_true, if_false]
                  rw [map_upd_eq_self _ hni₁, map_upd_eq_self _ hni₂,
                    find?_owner_none hni₁, find?_owner_none hni₂]
      · simp only [patchTaskHandler, hp]
        cases hv : validateEnums body.status body.priority with
        | some m => simp
        | none =>
            cases hbs : buildSets body with
            | error m => simp
            | ok sets =>
                by_cases hse : sets.isEmpty
                · simp [hse]
                · simp only [hse, Bool.false_eq_true, if_false]
                  rw [map_upd_eq_self _ hni₁]
      · simp only [deleteTaskHandler, hp]
        rw [filter_owner_nil hni₁, filter_owner_nil hni₂,
          filter_not_owner_self hni₁, filter_not_owner_self hni₂]
        simp
      · simp only [deleteTaskHandler, hp]
        rw [filter_owner_nil hni₁, filter_not_owner_self hni₁]
        simp

/-- Sample row owned by user 8, used to instantiate ownership-mismatch
scenarios. -/
def sampleOther : Task :=
  ⟨1, 8, "a", some "d", "todo", "low", some "2020-01-01",
    "2024-01-01T00:00:00Z", "2024-01-01T00:00:00Z"⟩

/-- Witness for C1: task id 1 exists but is owned by user 8; caller 7 gets
exactly the responses of an empty store, with nothing mutated. -/
theorem spec_c1_witness :
    getTaskHandler [sampleOther] 7 "1" = getTaskHandler [] 7 "1" ∧
    getTaskHandler [sampleOther] 7 "1" = notFoundResp ∧
    (patchTaskHandler [sampleOther] 7 "1" {} "t0").1 =
      (patchTaskHandler [] 7 "1" {} "t0").1 ∧
    (patchTaskHandler [sampleOther] 7 "1" {} "t0").2 = [sampleOther] ∧
    (deleteTaskHandler [sampleOther] 7 "1").1 = (deleteTaskHandler [] 7 "1").1 ∧
    (deleteTaskHandler [sampleOther] 7 "1").2 = [sampleOther] :=
  spec_c1 [sampleOther] [] 7 "1" {} "t0" (by decide) (by decide)

/-! ## C3 -/

lemma applyAssign_id (s : Task) (a : Assign) : (applyAssign s a).id = s.id := by
  cases a <;> rfl

lemma applyAssign_user_id (s : Task) (a : Assign) :
    (applyAssign s a).user_id = s.user_id := by
  cases a <;> rfl

lemma foldl_assign_id (sets : List Assign) (s : Task) :
    (sets.foldl applyAssign s).id = s.id := by
  induction sets generalizing s with
  | nil => rfl
  | cons a r ih => rw [List.foldl_cons, ih, applyAssign_id]

lemma foldl_assign_user_id (sets : List Assign) (s : Task) :
    (sets.foldl applyAssign s).user_id = s.user_id := by
  induction sets generalizing s with
  | nil => rfl
  | cons a r ih => rw [List.foldl_cons, ih, applyAssign_user_id]

/-- The updated row is found by the owner-scoped lookup: with unique ids,
mapping the id-and-owner-guarded update over the store and then looking up
the same predicate yields exactly the updated target row. -/
lemma find?_map_upd {store : Store} {i uid : Nat} {t : Task}
    (hnd : (store.map Task.id).Nodup) (ht : t ∈ store) (hid : t.id = i)
    (huid : t.user_id = uid) (f : Task → Task)
    (hfid : ∀ s, (f s).id = s.id) (hfuid : ∀ s, (f s).user_id = s.user_id) :
    (store.map (fun s => if s.id == i && s.user_id == uid then f s else s)).find?
      (fun s => s.id == i && s.user_id == uid) = some (f t) := by
  induction store with
  | nil => cases ht
  | cons a l ih =>
      simp only [List.map_cons] at hnd
      rw [List.nodup_cons] at hnd
      by_cases hai : a.id = i
      · have hta : t = a := by
          rcases List.mem_cons.mp ht with h | h
          · exact h
          · exfalso
            apply hnd.1
            have hmem : t.id ∈ List.map Task.id l := List.mem_map_of_mem Task.id h
            rw [hid] at hmem
            rw [hai]
            exact hmem
        subst hta
        have hc : (t.id == i && t.user_id == uid) = true := by
          simp [hid, huid]
        simp only [List.map_cons, if_pos hc]
        exact List.find?_cons_of_pos _ (by simp [hfid, hfuid, hid, huid])
      · have hcf : (a.id == i && a.user_id == uid) = false := by simp [hai]
        have htl : t ∈ l := by
          rcases List.mem_cons.mp ht with h | h
          · exact absurd (h ▸ hid) hai
          · exact h
        simp only [List.map_cons, hcf, Bool.false_eq_true, if_false, List.find?_cons]
        exact ih hnd.2 htl

/-- With unique ids, any row the owner-scoped lookup returns for id `i` is
the (unique) member with that id. -/
lemma unique_owner_row {store : Store} {i uid : Nat} {t u : Task}
    (hnd : (store.map Task.id).Nodup) (ht : t ∈ store) (hid : t.id = i)
    (hu : store.find? (fun s => s.id == i && s.user_id == uid) = some u) :
    u = t := by
  have hmem := List.mem_of_find?_eq_some hu
  have hpred := List.find?_some hu
  simp only [Bool.and_eq_true, beq_iff_eq] at hpred
  exact List.inj_on_of_nodup_map hnd hmem ht (by rw [hpred.1, hid])

lemma foldl_assign_description {sets : List Assign}
    (h : ∀ v, Assign.setDescription v ∉ sets) (s : Task) :
    (sets.foldl applyAssign s).description = s.description := by
  induction sets generalizing s with
  | nil => rfl
  | cons a r ih =>
      rw [List.foldl_cons, ih (fun v hv => h v (List.mem_cons_of_mem a hv))]
      cases a with
      | setDescription v => exact absurd (List.mem_cons_self _ _) (h v)
      | setTitle v => rfl
      | setStatus v => rfl
      | setPriority v => rfl
      | setDueDate v => rfl

lemma foldl_assign_due_date {sets : List Assign}
    (h : ∀ v, Assign.setDueDate v ∉ sets) (s : Task) :
    (sets.foldl applyAssign s).due_date = s.due_date := by
  induction sets generalizing s with
  | nil => rfl
  | cons a r ih =>
      rw [List.foldl_cons, ih (fun v hv => h v (List.mem_cons_of_mem a hv))]
      cases a with
      | setDueDate v => exact absurd (List.mem_cons_self _ _) (h v)
      | setTitle v => rfl
      | setDescription v => rfl
      | setStatus v => rfl
      | setPriority v => rfl

/-- A body without a `description` key never emits a description
assignment. -/
lemma buildSets_no_description {body : UpdateBody} {sets : List Assign}
    (hb : body.description = none) (hs : buildSets body = .ok sets) :
    ∀ v, Assign.setDescription v ∉ sets := by
  intro v hv
  unfold buildSets at hs
  rcases hT : body.title with _ | w <;> rw [hT] at hs
  · injection hs with hsets
    subst hsets
    rcases hS : body.status with _ | sv <;> rcases hP : body.priority with _ | pv <;>
      rcases hD : body.due_date with _ | dv <;>
      simp [tailSets, hb, hS, hP, hD] at hv
  · change (if jsTrim ((JVal.toOptStr w).getD "") = ""
        then (Except.error "title cannot be empty" : Except String (List Assign))
        else .ok (tailSets body [.setTitle (jsTrim ((JVal.toOptStr w).getD ""))])) =
        .ok sets at hs
    by_cases hw : jsTrim ((JVal.toOptStr w).getD "") = ""
    · rw [if_pos hw] at hs; cases hs
    · rw [if_neg hw] at hs
      injection hs with hsets
      subst hsets
      rcases hS : body.status with _ | sv <;> rcases hP : body.priority with _ | pv <;>
        rcases hD : body.due_date with _ | dv <;>
        simp [tailSets, hb, hS, hP, hD] at hv

/-- A body without a `due_date` key never emits a due_date assignment. -/
lemma buildSets_no_due_date {body : UpdateBody} {sets : List Assign}
    (hb : body.due_date = none) (hs : buildSets body = .ok sets) :
    ∀ v, Assign.setDueDate v ∉ sets := by
  intro v hv
  unfold buildSets at hs
  rcases hT : body.title with _ | w <;> rw [hT] at hs
  · injection hs with hsets
    subst hsets
    rcases hS : body.status with _ | sv <;> rcases hP : body.priority with _ | pv <;>
      rcases hD : body.description with _ | dv <;>
      simp [tailSets, hb, hS, hP, hD] at hv
  · change (if jsTrim ((JVal.toOptStr w).getD "") = ""
        then (Except.error "title cannot be empty" : Except String (List Assign))
        else .ok (tailSets body [.setTitle (jsTrim ((JVal.toOptStr w).getD ""))])) =
        .ok sets at hs
    by_cases hw : jsTrim ((JVal.toOptStr w).getD "") = ""
    · rw [if_pos hw] at hs; cases hs
    · rw [if_neg hw] at hs
      injection hs with hsets
      subst hsets
      rcases hS : body.status with _ | sv <;> rcases hP : body.priority with _ | pv <;>
        rcases hD : body.description with _ | dv <;>
        simp [tailSets, hb, hS, hP, hD] at hv

/-- The PATCH success path: valid id, valid enums, non-empty SET list.
The single UPDATE-and-RETURNING statement yields the updated target row
and rewrites exactly the owner's row with that id. -/
lemma patch_success {store : Store} {uid i : Nat} {rawId : String} {t : Task}
    {body : UpdateBody} {sets : List Assign} (now : String)
    (hnd : (store.map Task.id).Nodup) (hp : parseTaskId rawId = some i)
    (ht : t ∈ store) (hid : t.id = i) (huid : t.user_id = uid)
    (hv : validateEnums body.status body.priority = none)
    (hbs : buildSets body = .ok sets) (hne : sets.isEmpty = false) :
    patchTaskHandler store uid rawId body now =
      (⟨200, .taskData { sets.foldl applyAssign t with updated_at := now }⟩,
        store.map (fun s => if s.id == i && s.user_id == uid
          then { sets.foldl applyAssign s with updated_at := now } else s)) := by
  simp only [patchTaskHandler, hp, hv, hbs, hne, Bool.false_eq_true, if_false]
  rw [find?_map_upd hnd ht hid huid
    (fun s => { sets.foldl applyAssign s with updated_at := now })
    (fun s => foldl_assign_id sets s) (fun s => foldl_assign_user_id sets s)]

/-- C3: for an existing task of the caller, a PATCH body with
`description: null` commits `description = NULL` (and returns the
committed row), while any body without the `description` key leaves the
stored description at its prior value; the two requests are observably
different from the same starting state, and the same holds for
`due_date`. -/
theorem spec_c3 (store : Store) (uid i : Nat) (rawId : String) (t : Task)
    (now : String)
    (hnd : (store.map Task.id).Nodup) (hp : parseTaskId rawId = some i)
    (ht : t ∈ store) (hid : t.id = i) (huid : t.user_id = uid) :
    (patchTaskHandler store uid rawId { description := some .jnull } now).1 =
      ⟨200, .taskData { t with description := none, updated_at := now }⟩ ∧
    stmtGetById (patchTaskHandler store uid rawId { description := some .jnull } now).2 i uid =
      some { t with description := none, updated_at := now } ∧
    (∀ b : UpdateBody, b.description = none → ∀ u,
      stmtGetById (patchTaskHandler store uid rawId b now).2 i uid = some u →
      u.description = t.description) ∧
    (patchTaskHandler store uid rawId { description := some .jnull } now).1 ≠
      (patchTaskHandler store uid rawId {} now).1 ∧
    (patchTaskHandler store uid rawId { due_date := some .jnull } now).1 =
      ⟨200, .taskData { t with due_date := none, updated_at := now }⟩ ∧
    stmtGetById (patchTaskHandler store uid rawId { due_date := some .jnull } now).2 i uid =
      some { t with due_date := none, updated_at := now } ∧
    (∀ b : UpdateBody, b.due_date = none → ∀ u,
      stmtGetById (patchTaskHandler store uid rawId b now).2 i uid = some u →
      u.due_date = t.due_date) ∧
    (patchTaskHandler store uid rawId { due_date := some .jnull } now).1 ≠
      (patchTaskHandler store uid rawId {} now).1 := by
  have h1 := @patch_success store uid i rawId t { description := some .jnull }
    [.setDescription none] now hnd hp ht hid huid rfl rfl rfl
  have h3 := @patch_success store uid i rawId t { due_date := some .jnull }
    [.setDueDate none] now hnd hp ht hid huid rfl rfl rfl
  have hempty : patchTaskHandler store uid rawId {} now =
      (⟨400, .errMsg "No fields to update"⟩, store) := by
    simp only [patchTaskHandler, hp]; rfl
  have hgen : ∀ b : UpdateBody, ∀ u : Task,
      stmtGetById (patchTaskHandler store uid rawId b now).2 i uid = some u →
      (u = t ∨ ∃ sets, buildSets b = .ok sets ∧
        u = { sets.foldl applyAssign t with updated_at := now }) := by
    intro b u hfind
    simp only [patchTaskHandler, hp] at hfind
    cases hv : validateEnums b.status b.priority with
    | some m =>
        simp only [hv] at hfind
        exact Or.inl (unique_owner_row hnd ht hid hfind)
    | none =>
        simp only [hv] at hfind
        cases hbs : buildSets b with
        | error m =>
            simp only [hbs] at hfind
            exact Or.inl (unique_owner_row hnd ht hid hfind)
        | ok sets =>
            simp only [hbs] at hfind
            cases hse : sets.isEmpty with
            | true =>
                simp only [hse] at hfind
                exact Or.inl (unique_owner_row hnd ht hid hfind)
            | false =>
                simp only [hse, Bool.false_eq_true, if_false] at hfind
                have hkey := find?_map_upd hnd ht hid huid
                  (fun s => { sets.foldl applyAssign s with updated_at := now })
                  (fun s => foldl_assign_id sets s) (fun s => foldl_assign_user_id sets s)
                have := hkey.symm.trans hfind
                injection this with hu
                exact Or.inr ⟨sets, rfl, hu.symm⟩
  refine ⟨?_, ?_, ?_, ?_, ?_, ?_, ?_, ?_⟩
  · rw [h1]; rfl
  · rw [h1]
    exact find?_map_upd hnd ht hid huid
      (fun s => { ([Assign.setDescription none]).foldl applyAssign s with updated_at := now })
      (fun s => rfl) (fun s => rfl)
  · intro b hb u hfind
    rcases hgen b u hfind with h | ⟨sets, hbs, hu⟩
    · rw [h]
    · rw [hu]
      exact foldl_assign_description (buildSets_no_description hb hbs) t
  · rw [h1, hempty]; simp
  · rw [h3]; rfl
  · rw [h3]
    exact find?_map_upd hnd ht hid huid
      (fun s => { ([Assign.setDueDate none]).foldl applyAssign s with updated_at := now })
      (fun s => rfl) (fun s => rfl)
  · intro b hb u hfind
    rcases hgen b u hfind with h | ⟨sets, hbs, hu⟩
    · rw [h]
    · rw [hu]
      exact foldl_assign_due_date (buildSets_no_due_date hb hbs) t
  · rw [h3, hempty]; simp

/-- Sample row owned by user 7, used to instantiate owner-success
scenarios. -/
def sampleMine : Task :=
  ⟨1, 7, "title a", some "desc", "todo", "low", some "2020-01-01",
    "2024-01-01T00:00:00Z", "2024-01-01T00:00:00Z"⟩

/-- Witness for C3 on a concrete one-task store. -/
theorem spec_c3_witness :
    (patchTaskHandler [sampleMine] 7 "1" { description := some .jnull } "t1").1 =
      ⟨200, .taskData { sampleMine with description := none, updated_at := "t1" }⟩ ∧
    (patchTaskHandler [sampleMine] 7 "1" { due_date := some .jnull } "t1").1 =
      ⟨200, .taskData { sampleMine with due_date := none, updated_at := "t1" }⟩ :=
  ⟨(spec_c3 [sampleMine] 7 1 "1" sampleMine "t1" (by decide) (by decide)
      (by decide) rfl rfl).1,
   (spec_c3 [sampleMine] 7 1 "1" sampleMine "t1" (by decide) (by decide)
      (by decide) rfl rfl).2.2.2.2.1⟩

/-! ## C4 -/

/-- The validation failures C4 enumerates: a present `title` that trims to
empty, a present `status` or `priority` outside its enum set, or a
document with no assignable field at all. -/
def invalidUpdateDoc (b : UpdateBody) : Prop :=
  (∃ v, b.title = some v ∧ jsTrim ((JVal.toOptStr v).getD "") = "") ∨
  (∃ v, b.status = some v ∧ v.inEnum VALID_STATUSES = false) ∨
  (∃ v, b.priority = some v ∧ v.inEnum VALID_PRIORITIES = false) ∨
  (b.title = none ∧ b.description = none ∧ b.status = none ∧
    b.priority = none ∧ b.due_date = none)

lemma validateEnums_some_of_bad_status {st : Option JVal} (pr : Option JVal)
    {v : JVal} (hv : st = some v) (hbad : v.inEnum VALID_STATUSES = false) :
    ∃ m, validateEnums st pr = some m := by
  subst hv
  exact ⟨"Invalid status. Must be one of: todo, in_progress, done",
    by simp [validateEnums, hbad]⟩

lemma validateEnums_some_of_bad_priority (st : Option JVal) {pr : Option JVal}
    {v : JVal} (hv : pr = some v) (hbad : v.inEnum VALID_PRIORITIES = false) :
    ∃ m, validateEnums st pr = some m := by
  subst hv
  cases st with
  | none =>
      exact ⟨"Invalid priority. Must be one of: low, medium, high, urgent",
        by simp [validateEnums, hbad]⟩
  | some w =>
      cases hw : w.inEnum VALID_STATUSES with
      | true =>
          exact ⟨"Invalid priority. Must be one of: low, medium, high, urgent",
            by simp [validateEnums, hw, hbad]⟩
      | false =>
          exact ⟨"Invalid status. Must be one of: todo, in_progress, done",
            by simp [validateEnums, hw]⟩

/-- C4: a PATCH request with a well-formed id whose document fails
validation — blank-trimming `title`, out-of-enum `status`/`priority`, or
zero assignable fields — returns an invalid-input (400) response and
leaves the store (hence the target task and its `updated_at`) wholly
unchanged: validation completes before any UPDATE is issued. -/
theorem spec_c4 (store : Store) (uid i : Nat) (rawId : String)
    (b : UpdateBody) (now : String)
    (hp : parseTaskId rawId = some i) (hb : invalidUpdateDoc b) :
    (patchTaskHandler store uid rawId b now).1.status = 400 ∧
    (patchTaskHandler store uid rawId b now).2 = store := by
  simp only [patchTaskHandler, hp]
  rcases hb with ⟨v, hv, htrim⟩ | ⟨v, hv, hbad⟩ | ⟨v, hv, hbad⟩ | hempty
  · cases hval : validateEnums b.status b.priority with
    | some m => simp
    | none =>
        have hbs : buildSets b = .error "title cannot be empty" := by
          unfold buildSets
          rw [hv]
          change (if jsTrim ((JVal.toOptStr v).getD "") = ""
            then (Except.error "title cannot be empty" : Except String (List Assign))
            else .ok (tailSets b [.setTitle (jsTrim ((JVal.toOptStr v).getD ""))])) = _
          rw [if_pos htrim]
        simp [hbs]
  · obtain ⟨m, hm⟩ := validateEnums_some_of_bad_status b.priority hv hbad
    simp [hm]
  · obtain ⟨m, hm⟩ := validateEnums_some_of_bad_priority b.status hv hbad
    simp [hm]
  · obtain ⟨h1, h2, h3, h4, h5⟩ := hempty
    have hval : validateEnums b.status b.priority = none := by
      rw [h3, h4]; rfl
    have hbs : buildSets b = .ok [] := by
      unfold buildSets
      rw [h1]
      simp [tailSets, h2, h3, h4, h5]
    simp [hval, hbs]

/-- Witness for C4: the empty document and a blank title, both against a
store whose task 1 would otherwise be updatable. -/
theorem spec_c4_witness :
    ((patchTaskHandler [sampleMine] 7 "1" {} "t1").1.status = 400 ∧
      (patchTaskHandler [sampleMine] 7 "1" {} "t1").2 = [sampleMine]) ∧
    ((patchTaskHandler [sampleMine] 7 "1" { title := some (.jstr "  ") } "t1").1.status = 400 ∧
      (patchTaskHandler [sampleMine] 7 "1" { title := some (.jstr "  ") } "t1").2 = [sampleMine]) :=
  ⟨spec_c4 [sampleMine] 7 1 "1" {} "t1" (by decide)
      (Or.inr (Or.inr (Or.inr ⟨rfl, rfl, rfl, rfl, rfl⟩))),
   spec_c4 [sampleMine] 7 1 "1" { title := some (.jstr "  ") } "t1" (by decide)
      (Or.inl ⟨.jstr "  ", rfl, by decide⟩)⟩

/-! ## C6 -/

/-- C6 counterexample: a supplied `limit=0` does not clamp to 1 as the
claim states; `parseInt('0') || 50` falls through to the default, so the
effective limit is 50, as the full handler response confirms. -/
theorem spec_c6_counterexample :
    effLimit { limit := some "0" } ≠ 1 ∧
    effLimit { limit := some "0" } = 50 ∧
    listTasksHandler [] 7 { limit := some "0" } "2026-01-01T00:00:00Z" =
      ⟨200, .listData [] 0 50 0⟩ :=
  ⟨by decide, by decide, by decide⟩

/-- C6 amended: the effective limit is 50 when the limit parameter is
absent, non-numeric, or parses to 0 (so `limit=0` yields the default 50,
not 1); any other parsed value is clamped to [1, 500].  The effective
offset is 0 when absent or non-numeric and otherwise the parsed value
clamped to be at least 0. -/
theorem spec_c6_amended (q : ListQuery) :
    (q.limit = none → effLimit q = 50) ∧
    (∀ s, q.limit = some s → parseIntAuto s = none → effLimit q = 50) ∧
    (∀ s, q.limit = some s → parseIntAuto s = some 0 → effLimit q = 50) ∧
    (∀ s n, q.limit = some s → parseIntAuto s = some n → n ≠ 0 →
      (effLimit q : Int) = min (max n 1) 500) ∧
    (q.offset = none → effOffset q = 0) ∧
    (∀ s, q.offset = some s → parseIntAuto s = none → effOffset q = 0) ∧
    (∀ s n, q.offset = some s → parseIntAuto s = some n →
      (effOffset q : Int) = max n 0) := by
  refine ⟨?_, ?_, ?_, ?_, ?_, ?_, ?_⟩
  · intro h; simp [effLimit, h]
  · intro s hs hn
    have hb : q.limit.bind parseIntAuto = none := by rw [hs]; simpa using hn
    simp [effLimit, hb]
  · intro s hs hn
    have hb : q.limit.bind parseIntAuto = some 0 := by rw [hs]; simpa using hn
    simp [effLimit, hb]
  · intro s n hs hn hnz
    have hb : q.limit.bind parseIntAuto = some n := by rw [hs]; simpa using hn
    simp only [effLimit, hb, if_neg hnz]
    exact Int.toNat_of_nonneg
      (le_min (le_trans zero_le_one (le_max_right n 1)) (by norm_num))
  · intro h; simp [effOffset, h]
  · intro s hs hn
    have hb : q.offset.bind parseIntAuto = none := by rw [hs]; simpa using hn
    simp [effOffset, hb]
  · intro s n hs hn
    have hb : q.offset.bind parseIntAuto = some n := by rw [hs]; simpa using hn
    simp only [effOffset, hb]
    exact Int.toNat_of_nonneg (le_max_right n 0)

/-- Witness for the amended C6 at "0", "-3" and "abc". -/
theorem spec_c6_witness :
    effLimit { limit := some "0" } = 50 ∧
    (effLimit { limit := some "-3" } : Int) = min (max (-3) 1) 500 ∧
    effOffset { offset := some "abc" } = 0 :=
  ⟨(spec_c6_amended { limit := some "0" }).2.2.1 "0" rfl (by decide),
   (spec_c6_amended { limit := some "-3" }).2.2.2.1 "-3" (-3) rfl (by decide)
     (by decide),
   (spec_c6_amended { offset := some "abc" }).2.2.2.2.2.1 "abc" rfl (by decide)⟩

/-! ## C9 -/

/-- C9 counterexample: creating a task with `due_date = "not-a-date"` —
a value outside both accepted textual forms — succeeds with 201 and
commits that value verbatim, instead of failing as the claim states. -/
theorem spec_c9_counterexample :
    (postTaskHandler [] 7
      { title := some (.jstr "x"), due_date := some (.jstr "not-a-date") }
      "t0" 1).1.status = 201 ∧
    (postTaskHandler [] 7
      { title := some (.jstr "x"), due_date := some (.jstr "not-a-date") }
      "t0" 1).2 =
      [⟨1, 7, "x", none, "todo", "medium", some "not-a-date", "t0", "t0"⟩] ∧
    isIsoDate "not-a-date" = false :=
  ⟨by decide, by decide, by decide⟩

/-- C9 amended: the stored `due_date` is exactly the value supplied (or
null): create and update perform no format validation on `due_date` and
commit any string verbatim; the two fixed textual forms are enforced only
on the `due_before`/`due_after` filter parameters of the list operation,
which fail with invalid-input when outside the forms. -/
theorem spec_c9_amended :
    (∀ (store : Store) (uid : Nat) (b : CreateBody) (now : String)
        (newId : Nat) (s : String),
      b.title = some (.jstr s) → jsTrim s ≠ "" →
      validateEnums b.status b.priority = none →
      (postTaskHandler store uid b now newId).2 =
        store ++ [⟨newId, uid, jsTrim s, b.description.bind JVal.toOptStr,
          (b.status.bind JVal.toOptStr).getD "todo",
          (b.priority.bind JVal.toOptStr).getD "medium",
          b.due_date.bind JVal.toOptStr, now, now⟩]) ∧
    (∀ (store : Store) (uid i : Nat) (rawId : String) (t : Task)
        (now : String) (v : JVal),
      (store.map Task.id).Nodup → parseTaskId rawId = some i →
      t ∈ store → t.id = i → t.user_id = uid →
      stmtGetById (patchTaskHandler store uid rawId { due_date := some v } now).2
          i uid =
        some { t with due_date := v.toOptStr, updated_at := now }) ∧
    (∀ (q : ListQuery) (s : String), q.due_before = some s →
      isIsoDate s = false → ∃ m, listValidationError q = some m) := by
  refine ⟨?_, ?_, ?_⟩
  · intro store uid b now newId s hs htrim hval
    simp only [postTaskHandler, hs, if_neg htrim, hval]
  · intro store uid i rawId t now v hnd hp ht hid huid
    have h := @patch_success store uid i rawId t { due_date := some v }
      [.setDueDate v.toOptStr] now hnd hp ht hid huid rfl rfl rfl
    rw [h]
    exact find?_map_upd hnd ht hid huid
      (fun s => { ([Assign.setDueDate v.toOptStr]).foldl applyAssign s with
        updated_at := now })
      (fun s => rfl) (fun s => rfl)
  · intro q s hs hbad
    cases hval : validateEnums (q.status.map JVal.jstr) (q.priority.map JVal.jstr) with
    | some m => exact ⟨m, by simp [listValidationError, hval]⟩
    | none =>
        refine ⟨"due_before must be a valid ISO 8601 date (YYYY-MM-DD or YYYY-MM-DDTHH:MM:SSZ)", ?_⟩
        simp [listValidationError, hval, hs, hbad]

/-- Witness for the amended C9: an arbitrary-text due_date survives both
create and update; a malformed filter bound fails. -/
theorem spec_c9_witness :
    (postTaskHandler [] 7
        { title := some (.jstr "x"), due_date := some (.jstr "garbage") }
        "t0" 1).2 =
      [⟨1, 7, "x", none, "todo", "medium", some "garbage", "t0", "t0"⟩] ∧
    stmtGetById (patchTaskHandler [sampleMine] 7 "1"
        { due_date := some (.jstr "also-bad") } "t1").2 1 7 =
      some { sampleMine with due_date := some "also-bad", updated_at := "t1" } ∧
    ∃ m, listValidationError { due_before := some "junk" } = some m :=
  ⟨spec_c9_amended.1 [] 7
      { title := some (.jstr "x"), due_date := some (.jstr "garbage") }
      "t0" 1 "x" rfl (by decide) rfl,
   spec_c9_amended.2.1 [sampleMine] 7 1 "1" sampleMine "t1" (.jstr "also-bad")
      (by decide) (by decide) (by decide) rfl rfl,
   spec_c9_amended.2.2 { due_before := some "junk" } "junk" rfl (by decide)⟩

/-! ## C10 -/

/-- The conditions under which the list handler's validation rejects the
request: an out-of-enum supplied `status` or `priority`, or a supplied
date bound outside the two accepted forms. -/
def badFilterParams (q : ListQuery) : Prop :=
  (∃ s, q.status = some s ∧ s ∉ VALID_STATUSES) ∨
  (∃ s, q.priority = some s ∧ s ∉ VALID_PRIORITIES) ∨
  (∃ s, q.due_before = some s ∧ isIsoDate s = false) ∨
  (∃ s, q.due_after = some s ∧ isIsoDate s = false)

lemma validateEnums_map_none_iff (st pr : Option String) :
    validateEnums (st.map JVal.jstr) (pr.map JVal.jstr) = none ↔
      (∀ s, st = some s → s ∈ VALID_STATUSES) ∧
      (∀ s, pr = some s → s ∈ VALID_PRIORITIES) := by
  cases st with
  | none =>
      cases pr with
      | none => simp [validateEnums]
      | some pv =>
          simp only [Option.map_none, Option.map_some, validateEnums, JVal.inEnum]
          by_cases hp : pv ∈ VALID_PRIORITIES
          · simp [List.elem_iff.mpr hp, hp]
          · simp [hp, fun h => hp (List.elem_iff.mp h)]
  | some sv =>
      cases pr with
      | none =>
          simp only [Option.map_none, Option.map_some, validateEnums, JVal.inEnum]
          by_cases hs : sv ∈ VALID_STATUSES
          · simp [List.elem_iff.mpr hs, hs]
          · simp [hs, fun h => hs (List.elem_iff.mp h)]
      | some pv =>
          simp only [Option.map_some, validateEnums, JVal.inEnum]
          by_cases hs : sv ∈ VALID_STATUSES
          · by_cases hp : pv ∈ VALID_PRIORITIES
            · simp [List.elem_iff.mpr hs, List.elem_iff.mpr hp, hs, hp]
            · simp [List.elem_iff.mpr hs, hs, hp, fun h => hp (List.elem_iff.mp h)]
          · simp [hs, fun h => hs (List.elem_iff.mp h)]

/-- The list handler rejects a request exactly when one of the four filter
values is invalid. -/
lemma listValidationError_none_iff (q : ListQuery) :
    listValidationError q = none ↔ ¬ badFilterParams q := by
  unfold listValidationError
  cases hval : validateEnums (q.status.map JVal.jstr) (q.priority.map JVal.jstr) with
  | some m =>
      have hbad : badFilterParams q := by
        have hnok : ¬ ((∀ s, q.status = some s → s ∈ VALID_STATUSES) ∧
            (∀ s, q.priority = some s → s ∈ VALID_PRIORITIES)) := fun hok => by
          have := (validateEnums_map_none_iff q.status q.priority).mpr hok
          rw [this] at hval; cases hval
        rcases not_and_or.mp hnok with h | h
        · push_neg at h
          obtain ⟨s, hs, hmem⟩ := h
          exact Or.inl ⟨s, hs, hmem⟩
        · push_neg at h
          obtain ⟨s, hs, hmem⟩ := h
          exact Or.inr (Or.inl ⟨s, hs, hmem⟩)
      simp [hbad]
  | none =>
      have henums := (validateEnums_map_none_iff q.status q.priority).mp hval
      cases hB : q.due_before with
      | some bv =>
          by_cases hbv : isIsoDate bv
          · cases hA : q.due_after with
            | some av =>
                by_cases hav : isIsoDate av
                · simp only [hbv, if_true, dueAfterError, hA, hav]
                  constructor
                  · intro _ hbad
                    rcases hbad with ⟨s, hs, hmem⟩ | ⟨s, hs, hmem⟩ |
                        ⟨s, hs, hiso⟩ | ⟨s, hs, hiso⟩
                    · exact hmem (henums.1 s hs)
                    · exact hmem (henums.2 s hs)
                    · rw [hB] at hs; injection hs with h; subst h
                      rw [hbv] at hiso; cases hiso
                    · rw [hA] at hs; injection hs with h; subst h
                      rw [hav] at hiso; cases hiso
                  · intro _; trivial
                · have hbad : badFilterParams q :=
                    Or.inr (Or.inr (Or.inr ⟨av, hA, by simpa using hav⟩))
                  simp [hbv, dueAfterError, hA, hav, hbad]
            | none =>
                simp only [hbv, if_true, dueAfterError, hA]
                constructor
                · intro _ hbad
                  rcases hbad with ⟨s, hs, hmem⟩ | ⟨s, hs, hmem⟩ |
                      ⟨s, hs, hiso⟩ | ⟨s, hs, hiso⟩
                  · exact hmem (henums.1 s hs)
                  · exact hmem (henums.2 s hs)
                  · rw [hB] at hs; injection hs with h; subst h
                    rw [hbv] at hiso; cases hiso
                  · rw [hA] at hs; cases hs
                · intro _; trivial
          · have hbad : badFilterParams q :=
              Or.inr (Or.inr (Or.inl ⟨bv, hB, by simpa using hbv⟩))
            simp [hbv, hbad]
      | none =>
          cases hA : q.due_after with
          | some av =>
              by_cases hav : isIsoDate av
              · simp only [dueAfterError, hA, hav, if_true]
                constructor
                · intro _ hbad
                  rcases hbad with ⟨s, hs, hmem⟩ | ⟨s, hs, hmem⟩ |
                      ⟨s, hs, hiso⟩ | ⟨s, hs, hiso⟩
                  · exact hmem (henums.1 s hs)
                  · exact hmem (henums.2 s hs)
                  · rw [hB] at hs; cases hs
                  · rw [hA] at hs; injection hs with h; subst h
                    rw [hav] at hiso; cases hiso
                · intro _; trivial
              · have hbad : badFilterParams q :=
                  Or.inr (Or.inr (Or.inr ⟨av, hA, by simpa using hav⟩))
                simp [dueAfterError, hA, hav, hbad]
          | none =>
              simp only [dueAfterError, hA]
              constructor
              · intro _ hbad
                rcases hbad with ⟨s, hs, hmem⟩ | ⟨s, hs, hmem⟩ |
                    ⟨s, hs, hiso⟩ | ⟨s, hs, hiso⟩
                · exact hmem (henums.1 s hs)
                · exact hmem (henums.2 s hs)
                · rw [hB] at hs; cases hs
                · rw [hA] at hs; cases hs
              · intro _; trivial

/-- C10: the list operation never fails because of `include_overdue`,
`limit` or `offset`: a value of `include_overdue` other than exactly
"true" behaves as if the flag were absent, non-numeric `limit`/`offset`
silently fall back to the defaults 50 and 0, and the handler returns an
invalid-input (400) response exactly when a supplied status, priority,
due_before or due_after value is invalid (otherwise it returns 200). -/
theorem spec_c10 (store : Store) (uid : Nat) (q : ListQuery) (now : String) :
    (∀ s, q.include_overdue = some s → s ≠ "true" →
      listTasksHandler store uid q now =
        listTasksHandler store uid { q with include_overdue := none } now) ∧
    (q.limit.bind parseIntAuto = none → effLimit q = 50) ∧
    (q.offset.bind parseIntAuto = none → effOffset q = 0) ∧
    ((∃ m, listTasksHandler store uid q now = ⟨400, .errMsg m⟩) ↔
      badFilterParams q) ∧
    (¬ badFilterParams q → (listTasksHandler store uid q now).status = 200) := by
  refine ⟨?_, ?_, ?_, ?_, ?_⟩
  · intro s hs hneq
    have hov : overdueFlag q = false := by
      simp [overdueFlag, hs, hneq]
    have hov' : overdueFlag { q with include_overdue := none } = false := rfl
    simp only [listTasksHandler, listPage, listRows, listTotal, effLimit,
      effOffset, listValidationError, dueAfterError, hasAnyFilter,
      matchesFilters, present, hov, hov']
  · intro h; simp [effLimit, h]
  · intro h; simp [effOffset, h]
  · constructor
    · rintro ⟨m, hm⟩
      by_contra hnb
      have hnone := (listValidationError_none_iff q).mpr hnb
      simp [listTasksHandler, hnone] at hm
    · intro hb
      have hne : listValidationError q ≠ none :=
        fun h => ((listValidationError_none_iff q).mp h) hb
      obtain ⟨m, hm⟩ := Option.ne_none_iff_exists'.mp hne
      exact ⟨m, by simp [listTasksHandler, hm]⟩
  · intro hnb
    simp [listTasksHandler, (listValidationError_none_iff q).mpr hnb]

/-- Witness for C10: `include_overdue=1` behaves as absent; non-numeric
limit and offset take the defaults; a bogus status yields a 400; a fully
default query yields 200. -/
theorem spec_c10_witness :
    listTasksHandler [] 7 { include_overdue := some "1" } "t0" =
      listTasksHandler [] 7 { include_overdue := none } "t0" ∧
    effLimit { limit := some "zzz" } = 50 ∧
    effOffset { offset := some "zzz" } = 0 ∧
    (∃ m, listTasksHandler [] 7 { status := some "bogus" } "t0" =
      ⟨400, .errMsg m⟩) ∧
    (listTasksHandler [] 7 {} "t0").status = 200 :=
  ⟨(spec_c10 [] 7 { include_overdue := some "1" } "t0").1 "1" rfl (by decide),
   (spec_c10 [] 7 { limit := some "zzz" } "t0").2.1 (by decide),
   (spec_c10 [] 7 { offset := some "zzz" } "t0").2.2.1 (by decide),
   (spec_c10 [] 7 { status := some "bogus" } "t0").2.2.2.1.mpr
     (Or.inl ⟨"bogus", rfl, by decide⟩),
   (spec_c10 [] 7 {} "t0").2.2.2.2 (by
     intro hb
     rcases hb with ⟨s, hs, _⟩ | ⟨s, hs, _⟩ | ⟨s, hs, _⟩ | ⟨s, hs, _⟩ <;> cases hs)⟩

/-! ## C7 -/

lemma mem_allShapes (s : Shape) : s ∈ allShapes := by
  rcases s with ⟨a, b, c, d, e⟩
  cases a <;> cases b <;> cases c <;> cases d <;> cases e <;> decide

lemma lookup_none_not_mem {c : StmtCache} {k : String}
    (h : c.lookup k = none) : k ∉ c.map Prod.fst := by
  induction c with
  | nil => simp
  | cons p l ih =>
      obtain ⟨pk, pv⟩ := p
      cases hk : (k == pk) with
      | true =>
          simp only [List.lookup, hk] at h
          cases h
      | false =>
          simp only [List.lookup, hk] at h
          simp only [List.map_cons, List.mem_cons]
          rintro (h1 | h1)
          · exact absurd (by simp [h1]) (by simp [hk] : ¬(k == pk) = true)
          · exact ih h h1

/-- `getStmt` keeps the cache keys duplicate-free and inside any key set
containing the requested SQL. -/
lemma getStmt_preserves {c : StmtCache} {P : String → Prop} (sql : String)
    (hn : (c.map Prod.fst).Nodup) (hP : ∀ k ∈ c.map Prod.fst, P k)
    (hsql : P sql) :
    ((getStmt c sql).2.map Prod.fst).Nodup ∧
    (∀ k ∈ (getStmt c sql).2.map Prod.fst, P k) := by
  unfold getStmt
  cases hl : c.lookup sql with
  | some st => exact ⟨hn, hP⟩
  | none =>
      constructor
      · simp only [List.map_append, List.map_cons, List.map_nil]
        rw [List.nodup_append]
        refine ⟨hn, List.nodup_singleton _, ?_⟩
        intro x hx hx'
        rw [List.mem_singleton] at hx'
        exact lookup_none_not_mem hl (hx' ▸ hx)
      · intro k hk
        simp only [List.map_append, List.map_cons, List.map_nil,
          List.mem_append, List.mem_singleton] at hk
        rcases hk with hk | hk
        · exact hP k hk
        · exact hk ▸ hsql

lemma cacheAfterListRequests_invariant (qs : List ListQuery) (c : StmtCache)
    (hn : (c.map Prod.fst).Nodup)
    (hsub : ∀ k ∈ c.map Prod.fst, k ∈ allListSqls) :
    ((cacheAfterListRequests qs c).map Prod.fst).Nodup ∧
    (∀ k ∈ (cacheAfterListRequests qs c).map Prod.fst, k ∈ allListSqls) := by
  induction qs generalizing c with
  | nil => exact ⟨hn, hsub⟩
  | cons q rest ih =>
      have hl : listSqlOf q ∈ allListSqls :=
        List.mem_append.mpr (Or.inl (List.mem_map_of_mem _ (mem_allShapes _)))
      have hc : countSqlOf q ∈ allListSqls :=
        List.mem_append.mpr (Or.inr (List.mem_map_of_mem _ (mem_allShapes _)))
      have step1 := getStmt_preserves (listSqlOf q) hn hsub hl
      have step2 := getStmt_preserves (countSqlOf q) step1.1 step1.2 hc
      simp only [cacheAfterListRequests, List.foldl_cons]
      exact ih _ step2.1 step2.2

lemma length_le_of_nodup_subset {l L : List String}
    (hn : l.Nodup) (hs : ∀ k ∈ l, k ∈ L) : l.length ≤ L.length := by
  have h2 : l.toFinset ⊆ L.toFinset := by
    intro x hx
    rw [List.mem_toFinset] at hx ⊢
    exact hs x hx
  calc l.length = l.toFinset.card := (List.toFinset_card_of_nodup hn).symm
    _ ≤ L.toFinset.card := Finset.card_le_card h2
    _ ≤ L.length := L.toFinset_card_le

/-- C7: the generated list and count SQL texts depend only on the request
shape (which filters are present plus the overdue flag), never on filter
values; and the statement cache, over any sequence of list requests, keeps
at most one entry per distinct SQL text and never exceeds the 64 texts
the 32 shapes can generate. -/
theorem spec_c7 :
    (∀ q₁ q₂ : ListQuery, shapeOf q₁ = shapeOf q₂ →
      listSqlOf q₁ = listSqlOf q₂ ∧ countSqlOf q₁ = countSqlOf q₂) ∧
    (∀ qs : List ListQuery,
      ((cacheAfterListRequests qs []).map Prod.fst).Nodup ∧
      (∀ k ∈ (cacheAfterListRequests qs []).map Prod.fst, k ∈ allListSqls) ∧
      (cacheAfterListRequests qs []).length ≤ 64) := by
  constructor
  · intro q₁ q₂ h
    exact ⟨by unfold listSqlOf; rw [h], by unfold countSqlOf; rw [h]⟩
  · intro qs
    have hinv := cacheAfterListRequests_invariant qs [] (by simp) (by simp)
    refine ⟨hinv.1, hinv.2, ?_⟩
    have hlen : (cacheAfterListRequests qs []).length =
        ((cacheAfterListRequests qs []).map Prod.fst).length :=
      (List.length_map _ _).symm
    rw [hlen]
    calc ((cacheAfterListRequests qs []).map Prod.fst).length
        ≤ allListSqls.length := length_le_of_nodup_subset hinv.1 hinv.2
      _ = 64 := by rfl

/-- Witness for C7: two same-shape requests with different values share
SQL texts, and a concrete request sequence keeps the cache duplicate-free
and bounded. -/
theorem spec_c7_witness :
    (listSqlOf { status := some "todo" } = listSqlOf { status := some "done" } ∧
      countSqlOf { status := some "todo" } = countSqlOf { status := some "done" }) ∧
    ((cacheAfterListRequests
        [{ status := some "todo" }, { status := some "done" }, {}] []).map
        Prod.fst).Nodup ∧
    (cacheAfterListRequests
        [{ status := some "todo" }, { status := some "done" }, {}] []).length ≤ 64 :=
  ⟨spec_c7.1 { status := some "todo" } { status := some "done" } (by decide),
   (spec_c7.2 [{ status := some "todo" }, { status := some "done" }, {}]).1,
   (spec_c7.2 [{ status := some "todo" }, { status := some "done" }, {}]).2.2⟩

/-! ## C2 -/

lemma insertByCreatedDesc_perm (t : Task) (l : List Task) :
    List.Perm (insertByCreatedDesc t l) (t :: l) := by
  induction l with
  | nil => exact List.Perm.refl _
  | cons a l ih =>
      unfold insertByCreatedDesc
      by_cases h : a.created_at ≤ t.created_at
      · rw [if_pos h]
      · rw [if_neg h]
        exact (ih.cons a).trans (List.Perm.swap t a l)

lemma sortByCreatedDesc_perm (l : List Task) :
    List.Perm (sortByCreatedDesc l) l := by
  induction l with
  | nil => exact List.Perm.refl _
  | cons a l ih =>
      unfold sortByCreatedDesc
      simp only [List.foldr_cons]
      exact (insertByCreatedDesc_perm a _).trans (ih.cons a)

/-- C2: with at least one explicit filter and `include_overdue=true`, the
query's result set is the set union of (owner AND filters) and (owner AND
overdue): a task appears in the pre-pagination result exactly once when it
satisfies either branch — never twice, even when it satisfies both — and
zero times otherwise; the delivered page, a sub-selection of that result,
therefore also never repeats a task, and the handler returns it with
status 200. -/
theorem spec_c2 (store : Store) (uid : Nat) (q : ListQuery) (now : String)
    (hf : hasAnyFilter q = true) (ho : overdueFlag q = true)
    (hv : listValidationError q = none) :
    (∀ t : Task, (listRows store uid q now).count t =
      if t ∈ store ∧ (ownerPred uid t &&
          (matchesFilters q t || isOverdueTask now t)) = true
      then 1 else 0) ∧
    (∀ t : Task,
      (listPage store uid q now).count t ≤ (listRows store uid q now).count t) ∧
    listTasksHandler store uid q now =
      ⟨200, .listData (listPage store uid q now) (listTotal store uid q now)
        (effLimit q) (effOffset q)⟩ := by
  refine ⟨?_, ?_, ?_⟩
  · intro t
    unfold listRows
    rw [hf, ho]
    simp only [Bool.and_self, if_true]
    rw [List.count_dedup]
    have hiff : (t ∈ store.filter (fun t => ownerPred uid t && matchesFilters q t) ++
          store.filter (fun t => ownerPred uid t && isOverdueTask now t)) ↔
        (t ∈ store ∧ (ownerPred uid t &&
          (matchesFilters q t || isOverdueTask now t)) = true) := by
      simp only [List.mem_append, List.mem_filter]
      cases howner : ownerPred uid t <;> cases hm : matchesFilters q t <;>
        cases hov : isOverdueTask now t <;> simp
    rw [if_congr hiff rfl rfl]
  · intro t
    unfold listPage
    have hperm := sortByCreatedDesc_perm (listRows store uid q now)
    exact le_trans
      (((List.take_sublist _ _).trans (List.drop_sublist _ _)).count_le t)
      (le_of_eq (hperm.count_eq t))
  · simp [listTasksHandler, hv]

/-- Sample completed row owned by user 7 with a past due date: neither
overdue (status done) nor matching a `status=todo` filter. -/
def sampleDone : Task :=
  ⟨2, 7, "b", none, "done", "low", some "2020-01-01",
    "2024-01-02T00:00:00Z", "2024-01-02T00:00:00Z"⟩

/-- Witness for C2: a task that is simultaneously filter-matching and
overdue appears exactly once in the union result. -/
theorem spec_c2_witness :
    (listRows [sampleMine, sampleDone] 7
      { status := some "todo", include_overdue := some "true" }
      "2026-01-01T00:00:00Z").count sampleMine = 1 := by
  have h := (spec_c2 [sampleMine, sampleDone] 7
    { status := some "todo", include_overdue := some "true" }
    "2026-01-01T00:00:00Z" (by decide) (by decide) (by decide)).1 sampleMine
  rw [h]
  decide

/-! ## C5 -/

/-- The predicate the spec says both the page and `meta.total` are
computed against: owner scope plus the requested filters, with the
overdue union rule.  Stated from the spec's words, to be compared with
the handler's per-branch count SQL. -/
def specListPredicate (q : ListQuery) (now : String) (uid : Nat) (t : Task) : Bool :=
  ownerPred uid t &&
    (if hasAnyFilter q && overdueFlag q then
      matchesFilters q t || isOverdueTask now t
    else if hasAnyFilter q then matchesFilters q t
    else if overdueFlag q then isOverdueTask now t
    else true)

/-- `COUNT(*)` over the deduplicated id union equals the count of rows
satisfying the disjunction, when ids are unique. -/
lemma dedup_ids_append_length {store : Store}
    (hnd : (store.map Task.id).Nodup) (p1 p2 : Task → Bool) :
    (((store.filter p1).map Task.id) ++ ((store.filter p2).map Task.id)).dedup.length
      = (store.filter (fun t => p1 t || p2 t)).length := by
  have hC : ((store.filter (fun t => p1 t || p2 t)).map Task.id).Nodup :=
    List.Nodup.sublist ((List.filter_sublist store).map Task.id) hnd
  rw [← List.card_toFinset]
  have hlen : (store.filter (fun t => p1 t || p2 t)).length
      = ((store.filter (fun t => p1 t || p2 t)).map Task.id).length :=
    (List.length_map _ _).symm
  rw [hlen, ← List.toFinset_card_of_nodup hC]
  congr 1
  ext x
  simp only [List.mem_toFinset, List.mem_append, List.mem_map, List.mem_filter]
  constructor
  · rintro (⟨t, ⟨htm, hp⟩, rfl⟩ | ⟨t, ⟨htm, hp⟩, rfl⟩)
    · exact ⟨t, ⟨htm, by simp [hp]⟩, rfl⟩
    · exact ⟨t, ⟨htm, by simp [hp]⟩, rfl⟩
  · rintro ⟨t, ⟨htm, hp⟩, rfl⟩
    rcases (by simpa using hp : p1 t = true ∨ p2 t = true) with h1 | h1
    · exact Or.inl ⟨t, ⟨htm, h1⟩, rfl⟩
    · exact Or.inr ⟨t, ⟨htm, h1⟩, rfl⟩

/-- The row union of the list SQL has the same size as the id union of
the count SQL, when ids are unique. -/
lemma dedup_rows_append_length {store : Store}
    (hnd : (store.map Task.id).Nodup) (p1 p2 : Task → Bool) :
    ((store.filter p1) ++ (store.filter p2)).dedup.length
      = (store.filter (fun t => p1 t || p2 t)).length := by
  have hstore : store.Nodup := List.Nodup.of_map _ hnd
  have hC : (store.filter (fun t => p1 t || p2 t)).Nodup := hstore.filter _
  rw [← List.card_toFinset, ← List.toFinset_card_of_nodup hC]
  congr 1
  ext x
  simp only [List.mem_toFinset, List.mem_append, List.mem_filter]
  constructor
  · rintro (⟨hm, hp⟩ | ⟨hm, hp⟩)
    · exact ⟨hm, by simp [hp]⟩
    · exact ⟨hm, by simp [hp]⟩
  · rintro ⟨hm, hp⟩
    rcases (by simpa using hp : p1 x = true ∨ p2 x = true) with h1 | h1
    · exact Or.inl ⟨hm, h1⟩
    · exact Or.inr ⟨hm, h1⟩

/-- C5: `meta.total` equals the number of stored tasks satisfying exactly
the predicate of the returned page (owner scope, filters, overdue union
rule, duplicates collapsed), equals the pre-pagination row count, and is
independent of the supplied limit and offset. -/
theorem spec_c5 (store : Store) (uid : Nat) (q : ListQuery) (now : String)
    (hnd : (store.map Task.id).Nodup) (hv : listValidationError q = none) :
    listTotal store uid q now =
      (store.filter (specListPredicate q now uid)).length ∧
    listTotal store uid q now = (listRows store uid q now).length ∧
    (∀ l o : Option String,
      listTotal store uid { q with limit := l, offset := o } now =
        listTotal store uid q now) ∧
    listTasksHandler store uid q now =
      ⟨200, .listData (listPage store uid q now) (listTotal store uid q now)
        (effLimit q) (effOffset q)⟩ := by
  refine ⟨?_, ?_, ?_, ?_⟩
  · rcases hf : hasAnyFilter q <;> rcases ho : overdueFlag q <;>
      simp only [listTotal, hf, ho, Bool.and_self, Bool.and_false,
        Bool.false_and, Bool.true_and, if_true, if_false,
        Bool.false_eq_true, Bool.true_eq_false]
    · apply congrArg List.length
      apply List.filter_congr
      intro t _
      simp [specListPredicate, hf, ho]
    · apply congrArg List.length
      apply List.filter_congr
      intro t _
      simp [specListPredicate, hf, ho]
    · apply congrArg List.length
      apply List.filter_congr
      intro t _
      simp [specListPredicate, hf, ho]
    · rw [dedup_ids_append_length hnd]
      apply congrArg List.length
      apply List.filter_congr
      intro t _
      simp [specListPredicate, hf, ho, Bool.and_or_distrib_left]
  · rcases hf : hasAnyFilter q <;> rcases ho : overdueFlag q <;>
      simp only [listTotal, listRows, hf, ho, Bool.and_self, Bool.and_false,
        Bool.false_and, Bool.true_and, if_true, if_false, Bool.false_eq_true,
        Bool.true_eq_false]
    rw [dedup_ids_append_length hnd, dedup_rows_append_length hnd]
  · intro l o
    rfl
  · simp [listTasksHandler, hv]

/-- Witness for C5 on a concrete store and query. -/
theorem spec_c5_witness :
    listTotal [sampleMine, sampleDone] 7
      { status := some "todo", include_overdue := some "true" }
      "2026-01-01T00:00:00Z" =
      ([sampleMine, sampleDone].filter
        (specListPredicate
          { status := some "todo", include_overdue := some "true" }
          "2026-01-01T00:00:00Z" 7)).length ∧
    listTotal [sampleMine, sampleDone] 7
      { status := some "todo", include_overdue := some "true",
        limit := some "1", offset := some "5" }
      "2026-01-01T00:00:00Z" =
      listTotal [sampleMine, sampleDone] 7
        { status := some "todo", include_overdue := some "true" }
        "2026-01-01T00:00:00Z" :=
  ⟨(spec_c5 [sampleMine, sampleDone] 7
      { status := some "todo", include_overdue := some "true" }
      "2026-01-01T00:00:00Z" (by decide) (by decide)).1,
   (spec_c5 [sampleMine, sampleDone] 7
      { status := some "todo", include_overdue := some "true" }
      "2026-01-01T00:00:00Z" (by decide) (by decide)).2.2.1
      (some "1") (some "5")⟩

end TaskApi
